import Mathlib

/-!
Verification of the orbital pass-prediction engine of
`modules/orbital.py` (class `OrbitalCalculator`), together with its
call site `SatIntelCLI._display_passes` in `modules/cli.py` and the
constants of `config/settings.py`.

Modelling choices:

* The machine floats of the pass-scan state machine
  (`calculate_passes`) are modelled as rationals; instants are
  rationals counting seconds from an arbitrary origin, so the scan step
  `timedelta(minutes=5)` is `300` and `timedelta.total_seconds()` is
  the identity.
* The single-instant pipeline (`_eci_to_geodetic`,
  `_calculate_look_angles`, `get_position_at_time`) is real-valued
  (`ℝ`) because it is built from `sqrt`, trigonometric functions,
  `asin` and `atan2`.
* The external SGP4 propagator (`sgp4.api.Satrec.sgp4`) is not part of
  this repository; it enters `get_position_at_time` as a function
  parameter that returns `none` exactly when the Python code takes the
  `error != 0` path or an exception is caught inside
  `get_position_at_time`.
* Inside the scan loop of `calculate_passes` the per-instant pipeline
  is abstracted by a function `look lat lon alt : ℕ → Outcome`: at step
  `i` it either yields a `Sample` (elevation, azimuth, distance), or
  `skip` when `get_position_at_time` returned `None`, or `fail` when
  the loop body raises an exception (the event the function's outer
  `try`/`except` guards against).
-/

/-- `EARTH_RADIUS_KM` from `config/settings.py`. -/
def EARTH_RADIUS_KM : ℝ := 6371.0

/-- `MIN_ELEVATION_DEGREES` from `config/settings.py`, the default
`min_elevation` of `calculate_passes` (rational model). -/
def MIN_ELEVATION_DEGREES : ℚ := 10.0

/-- One evaluated sample of the scan: the triple returned by
`_calculate_look_angles` at a sampled instant. -/
structure Sample where
  elevation : ℚ
  azimuth : ℚ
  distance_km : ℚ
deriving DecidableEq, Repr

/-- Outcome of one iteration body of the scan loop at a sampled
instant: `skip` models `get_position_at_time` returning `None`,
`sample` a successful evaluation of position and look angles, and
`fail` an exception raised by the loop body at that instant. -/
inductive Outcome where
  | fail : Outcome
  | skip : Outcome
  | sample : Sample → Outcome
deriving DecidableEq, Repr

/-- One entry of the `points` list of a pass (the nested
`satellite_position` payload is not tracked). -/
structure Point where
  time : ℚ
  elevation : ℚ
  azimuth : ℚ
  distance_km : ℚ
deriving DecidableEq, Repr

/-- The `current_pass` dict while a pass is still open, i.e. before the
keys `end_time` and `duration_minutes` are added. -/
structure OpenPass where
  start_time : ℚ
  max_elevation : ℚ
  max_elevation_time : ℚ
  max_elevation_azimuth : ℚ
  points : List Point
deriving DecidableEq, Repr

/-- A finished pass record, as appended to the `passes` list. -/
structure Pass where
  start_time : ℚ
  end_time : ℚ
  duration_minutes : ℚ
  max_elevation : ℚ
  max_elevation_time : ℚ
  max_elevation_azimuth : ℚ
  points : List Point
deriving DecidableEq, Repr

/-- An exception escaping the scan-loop body (e.g. `points[-1]` on an
empty list, or whatever a `fail` outcome stands for). -/
inductive ScanErr where
  | raised : ScanErr
deriving DecidableEq, Repr

/-- The loop state: the `passes` accumulator and `current_pass`. -/
abbrev ScanState := List Pass × Option OpenPass

/-- Closing a pass record: `end_time = points[-1]['time']` and
`duration_minutes = (end_time - start_time).total_seconds() / 60.0`;
`points[-1]` raises on an empty list. -/
def closePass (cp : OpenPass) : Except ScanErr Pass :=
  match cp.points.getLast? with
  | none => .error .raised
  | some last =>
      .ok { start_time := cp.start_time,
            end_time := last.time,
            duration_minutes := (last.time - cp.start_time) / 60,
            max_elevation := cp.max_elevation,
            max_elevation_time := cp.max_elevation_time,
            max_elevation_azimuth := cp.max_elevation_azimuth,
            points := cp.points }

/-- One iteration of the `while` loop body of `calculate_passes` at
instant `t`: skip absent samples; if the sample is visible
(`elevation >= min_elevation`) open or extend `current_pass`, updating
the max-elevation triple on a strictly greater elevation and appending
the point; otherwise close `current_pass` if one is open. -/
def scanStep (min_elevation t : ℚ) (st : ScanState) (o : Outcome) :
    Except ScanErr ScanState :=
  match o with
  | .fail => .error .raised
  | .skip => .ok st
  | .sample s =>
      if s.elevation ≥ min_elevation then
        let cp : OpenPass :=
          match st.2 with
          | none =>
              { start_time := t, max_elevation := s.elevation,
                max_elevation_time := t, max_elevation_azimuth := s.azimuth,
                points := [] }
          | some cp =>
              if s.elevation > cp.max_elevation then
                { cp with max_elevation := s.elevation,
                          max_elevation_time := t,
                          max_elevation_azimuth := s.azimuth }
              else cp
        .ok (st.1, some { cp with points := cp.points ++
          [{ time := t, elevation := s.elevation, azimuth := s.azimuth,
             distance_km := s.distance_km }] })
      else
        match st.2 with
        | none => .ok st
        | some cp => do
            let p ← closePass cp
            pure (st.1 ++ [p], none)

/-- Instant of scan step `i`: `start_time + i` five-minute steps,
in seconds. -/
def stepTime (t0 : ℚ) (i : ℕ) : ℚ := t0 + 300 * i

/-- Number of iterations of `while current_time <= end_time` with a
five-minute step over `hours_ahead` hours (`hours_ahead` is a Python
`int`): steps `i = 0, 1, ...` run while `300 * i ≤ 3600 * hours_ahead`,
i.e. `12 * hours_ahead + 1` iterations when `hours_ahead ≥ 0` and none
otherwise. -/
def numSteps (hours_ahead : ℤ) : ℕ :=
  if 0 ≤ hours_ahead then (12 * hours_ahead).toNat + 1 else 0

/-- The scan loop over the listed step indices. -/
def scanLoop (min_elevation t0 : ℚ) (f : ℕ → Outcome) :
    List ℕ → ScanState → Except ScanErr ScanState
  | [], st => .ok st
  | i :: l, st => do
      let st' ← scanStep min_elevation (stepTime t0 i) st (f i)
      scanLoop min_elevation t0 f l st'

/-- Body of `calculate_passes` inside its `try`: run the loop over the
whole horizon, then force-close a pass still open at the end. -/
def scanRun (f : ℕ → Outcome) (t0 : ℚ) (n : ℕ) (min_elevation : ℚ) :
    Except ScanErr (List Pass) := do
  let st ← scanLoop min_elevation t0 f (List.range n) ([], none)
  match st.2 with
  | none => pure st.1
  | some cp => do
      let p ← closePass cp
      pure (st.1 ++ [p])

/-- `OrbitalCalculator.calculate_passes(observer_lat, observer_lon,
observer_alt=0.0, hours_ahead=24, min_elevation=MIN_ELEVATION_DEGREES)`.
`look lat lon alt` abstracts the per-step pipeline
(`get_position_at_time` plus `_calculate_look_angles`) for the observer
`(lat, lon, alt)`; `t0` is the `datetime.utcnow()` scan origin in
seconds.  The final `match` is the function's trailing
`except Exception: ... return []`. -/
def calculate_passes (look : ℚ → ℚ → ℚ → ℕ → Outcome) (t0 : ℚ)
    (observer_lat observer_lon observer_alt : ℚ) (hours_ahead : ℤ)
    (min_elevation : ℚ) : List Pass :=
  match scanRun (look observer_lat observer_lon observer_alt) t0
      (numSteps hours_ahead) min_elevation with
  | .ok ps => ps
  | .error _ => []

/-- The call `calc.calculate_passes(observer_lat, observer_lon, hours)`
in `SatIntelCLI._display_passes` (`modules/cli.py`): three positional
arguments, so the third parameter `observer_alt` is bound to `hours`
while `hours_ahead` and `min_elevation` keep their Python defaults `24`
and `MIN_ELEVATION_DEGREES`. -/
def display_passes_scan (look : ℚ → ℚ → ℚ → ℕ → Outcome) (t0 : ℚ)
    (observer_lat observer_lon : ℚ) (hours : ℤ) : List Pass :=
  calculate_passes look t0 observer_lat observer_lon (hours : ℚ) 24
    MIN_ELEVATION_DEGREES

/-- The invariant of a finished pass record (claim C1): every point is
at least as high as the detection threshold, the max-elevation triple
is realized by one of the points and dominates all of them, the ends
are ordered and the duration is the time difference in minutes. -/
def PassOK (min_elevation : ℚ) (p : Pass) : Prop :=
  (∀ pt ∈ p.points, min_elevation ≤ pt.elevation) ∧
  (∀ pt ∈ p.points, pt.elevation ≤ p.max_elevation) ∧
  (∃ pt ∈ p.points, pt.elevation = p.max_elevation ∧
      pt.time = p.max_elevation_time ∧
      pt.azimuth = p.max_elevation_azimuth) ∧
  p.start_time ≤ p.end_time ∧
  p.duration_minutes = (p.end_time - p.start_time) / 60

/-- The invariant of the open pass being built. -/
def OpenOK (min_elevation : ℚ) (cp : OpenPass) : Prop :=
  cp.points ≠ [] ∧
  (∀ pt ∈ cp.points, min_elevation ≤ pt.elevation ∧
      pt.elevation ≤ cp.max_elevation ∧ cp.start_time ≤ pt.time) ∧
  (∃ pt ∈ cp.points, pt.elevation = cp.max_elevation ∧
      pt.time = cp.max_elevation_time ∧
      pt.azimuth = cp.max_elevation_azimuth)

/-- The invariant of the whole loop state, with a bound on the open
pass's start time (the next sampled instant is never earlier). -/
def StateOK (min_elevation bound : ℚ) (st : ScanState) : Prop :=
  (∀ p ∈ st.1, PassOK min_elevation p) ∧
  ∀ cp, st.2 = some cp → OpenOK min_elevation cp ∧ cp.start_time ≤ bound

lemma mem_of_getLast?_eq_some {α : Type} {l : List α} {a : α}
    (h : l.getLast? = some a) : a ∈ l := by
  rcases List.getLast?_eq_some_iff.1 h with ⟨l', rfl⟩
  simp

lemma StateOK.mono {minel b b' : ℚ} {st : ScanState}
    (h : StateOK minel b st) (hb : b ≤ b') : StateOK minel b' st :=
  ⟨h.1, fun cp hcp => ⟨(h.2 cp hcp).1, le_trans (h.2 cp hcp).2 hb⟩⟩

lemma closePass_of_ok {minel : ℚ} {cp : OpenPass} (h : OpenOK minel cp) :
    ∃ last, cp.points.getLast? = some last ∧
      closePass cp = .ok
        { start_time := cp.start_time, end_time := last.time,
          duration_minutes := (last.time - cp.start_time) / 60,
          max_elevation := cp.max_elevation,
          max_elevation_time := cp.max_elevation_time,
          max_elevation_azimuth := cp.max_elevation_azimuth,
          points := cp.points } ∧
      PassOK minel
        { start_time := cp.start_time, end_time := last.time,
          duration_minutes := (last.time - cp.start_time) / 60,
          max_elevation := cp.max_elevation,
          max_elevation_time := cp.max_elevation_time,
          max_elevation_azimuth := cp.max_elevation_azimuth,
          points := cp.points } := by
  obtain ⟨hne, hall, hmax⟩ := h
  obtain ⟨last, hlast⟩ := Option.isSome_iff_exists.1 (List.getLast?_isSome.2 hne)
  refine ⟨last, hlast, ?_, ?_⟩
  · simp [closePass, hlast]
  · refine ⟨fun pt hpt => (hall pt hpt).1, fun pt hpt => (hall pt hpt).2.1,
      hmax, ?_, rfl⟩
    exact (hall last (mem_of_getLast?_eq_some hlast)).2.2

lemma scanStep_preserves {minel t : ℚ} {st : ScanState} {o : Outcome}
    (h : StateOK minel t st) :
    ∀ st', scanStep minel t st o = .ok st' → StateOK minel t st' := by
  intro st' hstep
  cases o with
  | fail => simp [scanStep] at hstep
  | skip =>
      simp only [scanStep, Except.ok.injEq] at hstep
      exact hstep ▸ h
  | sample s =>
      by_cases hvis : s.elevation ≥ minel
      · rw [scanStep, if_pos hvis] at hstep
        cases hcp : st.2 with
        | none =>
            rw [hcp] at hstep
            simp only [Except.ok.injEq] at hstep
            subst hstep
            refine ⟨h.1, fun cp hcp' => ?_⟩
            simp only [Option.some.injEq] at hcp'
            subst hcp'
            refine ⟨⟨by simp, ?_, ?_⟩, le_refl _⟩
            · intro pt hpt
              simp only [List.nil_append, List.mem_singleton] at hpt
              subst hpt
              exact ⟨hvis, le_refl _, le_refl _⟩
            · exact ⟨Point.mk t s.elevation s.azimuth s.distance_km,
                by simp, rfl, rfl, rfl⟩
        | some cp =>
            rw [hcp] at hstep
            simp only [Except.ok.injEq] at hstep
            subst hstep
            obtain ⟨⟨hne, hall, hmax⟩, hstart⟩ := h.2 cp hcp
            refine ⟨h.1, fun cp' hcp' => ?_⟩
            simp only [Option.some.injEq] at hcp'
            subst hcp'
            by_cases hgt : s.elevation > cp.max_elevation
            · rw [if_pos hgt]
              refine ⟨⟨by simp, ?_, ?_⟩, hstart⟩
              · intro pt hpt
                rcases List.mem_append.1 hpt with hmem | hmem
                · exact ⟨(hall pt hmem).1,
                    le_trans (hall pt hmem).2.1 (le_of_lt hgt),
                    (hall pt hmem).2.2⟩
                · simp only [List.mem_singleton] at hmem
                  subst hmem
                  exact ⟨hvis, le_refl _, hstart⟩
              · exact ⟨Point.mk t s.elevation s.azimuth s.distance_km,
                  List.mem_append_right _ (by simp), rfl, rfl, rfl⟩
            · rw [if_neg hgt]
              refine ⟨⟨by simp, ?_, ?_⟩, hstart⟩
              · intro pt hpt
                rcases List.mem_append.1 hpt with hmem | hmem
                · exact hall pt hmem
                · simp only [List.mem_singleton] at hmem
                  subst hmem
                  exact ⟨hvis, le_of_not_lt hgt, hstart⟩
              · obtain ⟨pt, hpt, hprop⟩ := hmax
                exact ⟨pt, List.mem_append_left _ hpt, hprop⟩
      · rw [scanStep, if_neg hvis] at hstep
        cases hcp : st.2 with
        | none =>
            rw [hcp] at hstep
            simp only [Except.ok.injEq] at hstep
            exact hstep ▸ h
        | some cp =>
            rw [hcp] at hstep
            obtain ⟨hok, _⟩ := h.2 cp hcp
            obtain ⟨last, hlast, hclose, hpok⟩ := closePass_of_ok hok
            simp only [hclose, bind, Except.bind, pure, Except.pure,
              Except.ok.injEq] at hstep
            subst hstep
            refine ⟨fun p hp => ?_, by simp⟩
            rcases List.mem_append.1 hp with hmem | hmem
            · exact h.1 p hmem
            · simp only [List.mem_singleton] at hmem
              exact hmem ▸ hpok

lemma stepTime_mono (t0 : ℚ) {i j : ℕ} (h : i ≤ j) :
    stepTime t0 i ≤ stepTime t0 j := by
  unfold stepTime
  have : (i : ℚ) ≤ (j : ℚ) := by exact_mod_cast h
  nlinarith

lemma scanLoop_preserves (minel t0 : ℚ) (f : ℕ → Outcome) :
    ∀ (l : List ℕ) (st : ScanState) (b : ℚ),
      (∀ j ∈ l, b ≤ stepTime t0 j) → l.Pairwise (· ≤ ·) →
      StateOK minel b st →
      ∀ st', scanLoop minel t0 f l st = .ok st' →
        ∃ b', StateOK minel b' st' := by
  intro l
  induction l with
  | nil =>
      intro st b _ _ hst st' hrun
      simp only [scanLoop, Except.ok.injEq] at hrun
      exact ⟨b, hrun ▸ hst⟩
  | cons i l ih =>
      intro st b hb hpw hst st' hrun
      rw [scanLoop] at hrun
      cases hstep : scanStep minel (stepTime t0 i) st (f i) with
      | error e => rw [hstep] at hrun; simp [bind, Except.bind] at hrun
      | ok st₁ =>
          rw [hstep] at hrun
          simp only [bind, Except.bind] at hrun
          have hst₁ : StateOK minel (stepTime t0 i) st₁ :=
            scanStep_preserves (hst.mono (hb i (by simp))) st₁ hstep
          refine ih st₁ (stepTime t0 i) ?_ (List.Pairwise.sublist
            (List.sublist_cons_self i l) hpw) hst₁ st' hrun
          intro j hj
          exact stepTime_mono t0 ((List.pairwise_cons.1 hpw).1 j hj)

lemma scanRun_passes_ok {f : ℕ → Outcome} {t0 : ℚ} {n : ℕ} {minel : ℚ}
    {ps : List Pass} (h : scanRun f t0 n minel = .ok ps) :
    ∀ p ∈ ps, PassOK minel p := by
  rw [scanRun] at h
  cases hloop : scanLoop minel t0 f (List.range n) ([], none) with
  | error e => rw [hloop] at h; simp [bind, Except.bind] at h
  | ok st =>
      rw [hloop] at h
      simp only [bind, Except.bind] at h
      obtain ⟨b', hst⟩ := scanLoop_preserves minel t0 f (List.range n)
        ([], none) t0
        (fun j _ => by
          unfold stepTime
          have : (0 : ℚ) ≤ 300 * (j : ℚ) := by positivity
          linarith)
        (List.pairwise_le_range n)
        ⟨by simp, by simp⟩ st hloop
      cases hcp : st.2 with
      | none =>
          rw [hcp] at h
          simp only [pure, Except.pure, Except.ok.injEq] at h
          exact h ▸ hst.1
      | some cp =>
          rw [hcp] at h
          obtain ⟨hok, _⟩ := hst.2 cp hcp
          obtain ⟨last, hlast, hclose, hpok⟩ := closePass_of_ok hok
          simp only [hclose, bind, Except.bind, pure, Except.pure,
            Except.ok.injEq] at h
          subst h
          intro p hp
          rcases List.mem_append.1 hp with hmem | hmem
          · exact hst.1 p hmem
          · simp only [List.mem_singleton] at hmem
            exact hmem ▸ hpok

lemma stepTime_ge (t0 : ℚ) (j : ℕ) : t0 ≤ stepTime t0 j := by
  unfold stepTime
  have : (0 : ℚ) ≤ 300 * (j : ℚ) := by positivity
  linarith

/-- C1: every pass record returned by `calculate_passes` satisfies: each
sample point's elevation is at least the `min_elevation` threshold of
the scan; `max_elevation` dominates every point's elevation and the
`(max_elevation, max_elevation_time, max_elevation_azimuth)` triple is
realized by one of the record's points; `end_time ≥ start_time`; and
`duration_minutes` is exactly the end-to-start difference in minutes. -/
theorem calculate_passes_pass_invariant
    (look : ℚ → ℚ → ℚ → ℕ → Outcome) (t0 lat lon alt : ℚ)
    (hours : ℤ) (minel : ℚ) (p : Pass)
    (hp : p ∈ calculate_passes look t0 lat lon alt hours minel) :
    (∀ pt ∈ p.points, minel ≤ pt.elevation) ∧
    (∀ pt ∈ p.points, pt.elevation ≤ p.max_elevation) ∧
    (∃ pt ∈ p.points, pt.elevation = p.max_elevation ∧
        pt.time = p.max_elevation_time ∧
        pt.azimuth = p.max_elevation_azimuth) ∧
    p.start_time ≤ p.end_time ∧
    p.duration_minutes = (p.end_time - p.start_time) / 60 := by
  rw [calculate_passes] at hp
  cases hrun : scanRun (look lat lon alt) t0 (numSteps hours) minel with
  | error e => rw [hrun] at hp; simp at hp
  | ok ps =>
      rw [hrun] at hp
      exact scanRun_passes_ok hrun p hp

def lookC1 : ℚ → ℚ → ℚ → ℕ → Outcome := fun _ _ _ i =>
  if i = 0 then .sample ⟨20, 30, 500⟩ else .sample ⟨-5, 40, 600⟩

def passC1 : Pass :=
  { start_time := 0, end_time := 0, duration_minutes := 0,
    max_elevation := 20, max_elevation_time := 0,
    max_elevation_azimuth := 30, points := [⟨0, 20, 30, 500⟩] }

theorem calculate_passes_pass_invariant_witness :
    passC1 ∈ calculate_passes lookC1 0 0 0 0 1 10 ∧ PassOK 10 passC1 := by
  have hrange : List.range (numSteps 1) =
      [0, 1, 2, 3, 4, 5, 6, 7, 8, 9, 10, 11, 12] := by decide
  have heval : calculate_passes lookC1 0 0 0 0 1 10 = [passC1] := by
    rw [calculate_passes, scanRun, hrange]
    norm_num [scanLoop, scanStep, closePass, stepTime, lookC1, bind,
      Except.bind, pure, Except.pure, passC1]
  have hp : passC1 ∈ calculate_passes lookC1 0 0 0 0 1 10 := by
    rw [heval]; simp
  exact ⟨hp, calculate_passes_pass_invariant lookC1 0 0 0 0 1 10 passC1 hp⟩

/-- C2: a failed single-instant propagation (`get_position_at_time`
returning `None`) at a sampled instant is skipped: the loop state —
the passes already found and the pass being built — is unchanged and
the scan continues with the remaining sampled instants of the horizon,
so a propagation failure never ends the scan early and never discards
detected passes. -/
theorem scan_skips_failed_propagation
    (minel t0 : ℚ) (f : ℕ → Outcome) (i : ℕ) (l : List ℕ) (st : ScanState)
    (h : f i = .skip) :
    scanLoop minel t0 f (i :: l) st = scanLoop minel t0 f l st := by
  rw [scanLoop, h]
  rfl

theorem scan_skips_failed_propagation_witness :
    scanLoop 10 0 (fun _ => Outcome.skip) [0, 1] ([], none) =
      scanLoop 10 0 (fun _ => Outcome.skip) [1] ([], none) :=
  scan_skips_failed_propagation 10 0 (fun _ => Outcome.skip) 0 [1]
    ([], none) rfl

/-- C3: if the scan loop finishes the horizon with a pass still open,
`calculate_passes` still emits that pass, force-closed with `end_time`
the time of the last collected sample point and the duration derived
from it, appended after the passes already closed — no pass is dropped
at the horizon boundary. -/
theorem open_pass_closed_at_horizon
    (look : ℚ → ℚ → ℚ → ℕ → Outcome) (t0 lat lon alt : ℚ)
    (hours : ℤ) (minel : ℚ) (ps : List Pass) (cp : OpenPass)
    (h : scanLoop minel t0 (look lat lon alt) (List.range (numSteps hours))
        ([], none) = .ok (ps, some cp)) :
    ∃ last, cp.points.getLast? = some last ∧
      calculate_passes look t0 lat lon alt hours minel =
        ps ++ [{ start_time := cp.start_time, end_time := last.time,
                 duration_minutes := (last.time - cp.start_time) / 60,
                 max_elevation := cp.max_elevation,
                 max_elevation_time := cp.max_elevation_time,
                 max_elevation_azimuth := cp.max_elevation_azimuth,
                 points := cp.points }] := by
  obtain ⟨b', hst⟩ := scanLoop_preserves minel t0 (look lat lon alt)
    (List.range (numSteps hours)) ([], none) t0
    (fun j _ => stepTime_ge t0 j)
    (List.pairwise_le_range _) ⟨by simp, by simp⟩ (ps, some cp) h
  obtain ⟨hok, _⟩ := hst.2 cp rfl
  obtain ⟨last, hlast, hclose, _⟩ := closePass_of_ok hok
  refine ⟨last, hlast, ?_⟩
  simp only [calculate_passes, scanRun, h, bind, Except.bind, hclose,
    pure, Except.pure]

def lookC3 : ℚ → ℚ → ℚ → ℕ → Outcome := fun _ _ _ _ =>
  .sample ⟨20, 30, 500⟩

def cpC3 : OpenPass := ⟨0, 20, 0, 30, [⟨0, 20, 30, 500⟩]⟩

theorem open_pass_closed_at_horizon_witness :
    scanLoop 10 0 (lookC3 0 0 0) (List.range (numSteps 0)) ([], none) =
      .ok ([], some cpC3) ∧
    calculate_passes lookC3 0 0 0 0 0 10 =
      [{ start_time := 0, end_time := 0, duration_minutes := 0,
         max_elevation := 20, max_elevation_time := 0,
         max_elevation_azimuth := 30, points := [⟨0, 20, 30, 500⟩] }] := by
  have hrange : List.range (numSteps 0) = [0] := by decide
  have h1 : scanLoop 10 0 (lookC3 0 0 0) (List.range (numSteps 0))
      ([], none) = .ok ([], some cpC3) := by
    rw [hrange]
    norm_num [scanLoop, scanStep, stepTime, lookC3, cpC3, bind,
      Except.bind, pure, Except.pure]
  obtain ⟨last, hlast, heq⟩ :=
    open_pass_closed_at_horizon lookC3 0 0 0 0 0 10 [] cpC3 h1
  have hl : last = ⟨0, 20, 30, 500⟩ := by
    rw [cpC3] at hlast
    simpa using hlast.symm
  subst hl
  refine ⟨h1, ?_⟩
  rw [heq]
  norm_num [cpC3]

lemma closePass_ok_of_ne_nil {cp : OpenPass} (h : cp.points ≠ []) :
    ∃ p, closePass cp = .ok p := by
  obtain ⟨last, hlast⟩ :=
    Option.isSome_iff_exists.1 (List.getLast?_isSome.2 h)
  exact ⟨Pass.mk cp.start_time last.time
      ((last.time - cp.start_time) / 60) cp.max_elevation
      cp.max_elevation_time cp.max_elevation_azimuth cp.points,
    by simp [closePass, hlast]⟩

def lookC4 : ℚ → ℚ → ℚ → ℕ → Outcome := fun _ _ _ _ => .sample ⟨5, 0, 0⟩

lemma lookC4_scan_eval :
    scanRun (lookC4 0 0 0) 0 (numSteps 1) 200 = .ok [] := by
  have hrange : List.range (numSteps 1) =
      [0, 1, 2, 3, 4, 5, 6, 7, 8, 9, 10, 11, 12] := by decide
  rw [scanRun, hrange]
  norm_num [scanLoop, scanStep, stepTime, lookC4, bind, Except.bind,
    pure, Except.pure]

/-- C4 counterexample: called with `min_elevation = 200` — outside
`[-90, 90]` — `calculate_passes` raises no configuration error at all:
its body runs the full scan against the invalid threshold and returns
the ordinary value `.ok []`, and the function returns `[]` as a normal
result. -/
theorem calculate_passes_no_config_error_counterexample :
    scanRun (lookC4 0 0 0) 0 (numSteps 1) 200 = .ok [] ∧
    calculate_passes lookC4 0 0 0 0 1 200 = [] :=
  ⟨lookC4_scan_eval, by rw [calculate_passes, lookC4_scan_eval]⟩

/-- C4 amended: `calculate_passes` performs no configuration
validation.  With `hours_ahead < 0` the scan body runs zero iterations
and returns `.ok []`, and the function returns the empty list, for any
`min_elevation` whatsoever; an out-of-range `min_elevation` (such as
`200`) is used unchanged by the scan, which likewise completes
normally.  No configuration error is ever reported. -/
theorem calculate_passes_no_validation :
    (∀ (look : ℚ → ℚ → ℚ → ℕ → Outcome) (t0 lat lon alt : ℚ)
        (hours : ℤ) (minel : ℚ), hours < 0 →
      scanRun (look lat lon alt) t0 (numSteps hours) minel = .ok [] ∧
      calculate_passes look t0 lat lon alt hours minel = []) ∧
    calculate_passes lookC4 0 0 0 0 1 200 = [] := by
  constructor
  · intro look t0 lat lon alt hours minel hneg
    have hn : numSteps hours = 0 := by
      rw [numSteps, if_neg (not_le.2 hneg)]
    have h : scanRun (look lat lon alt) t0 (numSteps hours) minel =
        .ok [] := by
      rw [scanRun, hn]
      rfl
    exact ⟨h, by rw [calculate_passes, h]⟩
  · rw [calculate_passes, lookC4_scan_eval]

theorem calculate_passes_no_validation_witness :
    scanRun (lookC4 0 0 0) 0 (numSteps (-1)) 200 = .ok [] ∧
    calculate_passes lookC4 0 0 0 0 (-1) 200 = [] :=
  calculate_passes_no_validation.1 lookC4 0 0 0 0 (-1) 200 (by norm_num)

/-- C5: `_display_passes` calls `calculate_passes(observer_lat,
observer_lon, hours)` with three positional arguments, so `hours` is
bound to the third parameter `observer_alt` while `hours_ahead` keeps
its default `24`: the scan runs with observer altitude `hours` km and a
24-hour horizon, whatever `hours` was requested. -/
theorem display_passes_binds_hours_to_observer_alt
    (look : ℚ → ℚ → ℚ → ℕ → Outcome) (t0 lat lon : ℚ) (hours : ℤ) :
    display_passes_scan look t0 lat lon hours =
      calculate_passes look t0 lat lon (hours : ℚ) 24
        MIN_ELEVATION_DEGREES ∧
    display_passes_scan look t0 lat lon hours =
      (match scanRun (look lat lon (hours : ℚ)) t0 (numSteps 24)
          MIN_ELEVATION_DEGREES with
        | .ok ps => ps
        | .error _ => []) :=
  ⟨rfl, rfl⟩

def lookC6 : ℚ → ℚ → ℚ → ℕ → Outcome := fun _ _ _ i =>
  if i = 0 then .sample ⟨10, 1, 2⟩
  else if i = 1 then .sample ⟨9, 3, 4⟩
  else if i = 2 then .sample ⟨10, 5, 6⟩
  else .sample ⟨0, 0, 0⟩

def passC6a : Pass :=
  { start_time := 0, end_time := 0, duration_minutes := 0,
    max_elevation := 10, max_elevation_time := 0,
    max_elevation_azimuth := 1, points := [⟨0, 10, 1, 2⟩] }

def passC6b : Pass :=
  { start_time := 600, end_time := 600, duration_minutes := 0,
    max_elevation := 10, max_elevation_time := 600,
    max_elevation_azimuth := 5, points := [⟨600, 10, 5, 6⟩] }

/-- C6: after processing a present sample the pass is open exactly when
that sample's elevation is `>= min_elevation` — the same inclusive
comparison governs the rising and the falling edge, so the exact
threshold value counts as visible — and a single below-threshold sample
separates two records: the trace with elevations 10, 9, 10 against
threshold 10 yields two distinct one-point passes, never merged. -/
theorem threshold_inclusive_and_no_merging :
    (∀ (minel t : ℚ) (ps : List Pass) (op : Option OpenPass) (s : Sample),
      (∀ cp, op = some cp → cp.points ≠ []) →
      ((scanStep minel t (ps, op) (.sample s)).map fun st => st.2.isSome) =
        .ok (decide (minel ≤ s.elevation))) ∧
    calculate_passes lookC6 0 0 0 0 1 10 = [passC6a, passC6b] := by
  constructor
  · intro minel t ps op s hop
    by_cases hvis : s.elevation ≥ minel
    · rw [scanStep, if_pos hvis]
      cases op with
      | none => simp [Except.map, decide_eq_true hvis]
      | some cp => simp [Except.map, decide_eq_true hvis]
    · rw [scanStep, if_neg hvis]
      cases op with
      | none => simp [Except.map, decide_eq_false hvis]
      | some cp =>
          obtain ⟨p, hp⟩ := closePass_ok_of_ne_nil (hop cp rfl)
          simp [hp, Except.map, bind, Except.bind, pure, Except.pure,
            decide_eq_false hvis]
  · have hrange : List.range (numSteps 1) =
        [0, 1, 2, 3, 4, 5, 6, 7, 8, 9, 10, 11, 12] := by decide
    rw [calculate_passes, scanRun, hrange]
    norm_num [scanLoop, scanStep, closePass, stepTime, lookC6, bind,
      Except.bind, pure, Except.pure, passC6a, passC6b]

theorem threshold_inclusive_witness :
    ((scanStep 10 0 ([], none) (.sample ⟨10, 0, 0⟩)).map
        fun st => st.2.isSome) = .ok true ∧
    ((scanStep 10 600 ([], some ⟨0, 10, 0, 1, [⟨0, 10, 1, 2⟩]⟩)
        (.sample ⟨9, 0, 0⟩)).map fun st => st.2.isSome) = .ok false := by
  have h1 := threshold_inclusive_and_no_merging.1 10 0 [] none
    ⟨10, 0, 0⟩ (by simp)
  have h2 := threshold_inclusive_and_no_merging.1 10 600 []
    (some ⟨0, 10, 0, 1, [⟨0, 10, 1, 2⟩]⟩) ⟨9, 0, 0⟩ (by simp)
  constructor
  · rw [h1, decide_eq_true (by norm_num : (10 : ℚ) ≤ 10)]
  · rw [h2, decide_eq_false (by norm_num : ¬(10 : ℚ) ≤ 9)]

def lookC10 : ℚ → ℚ → ℚ → ℕ → Outcome := fun _ _ _ i =>
  if i = 0 then .sample ⟨20, 30, 500⟩
  else if i = 1 then .sample ⟨0, 0, 0⟩
  else .fail

/-- C10: `calculate_passes` returns a plain list to its caller in every
case; when the scan body raises at some instant (an `.error` result of
`scanRun`), the `except Exception` branch returns the empty list,
discarding every pass detected earlier in that scan instead of the
partial results. -/
theorem calculate_passes_swallows_exceptions
    (look : ℚ → ℚ → ℚ → ℕ → Outcome) (t0 lat lon alt : ℚ)
    (hours : ℤ) (minel : ℚ) (e : ScanErr)
    (h : scanRun (look lat lon alt) t0 (numSteps hours) minel =
      .error e) :
    calculate_passes look t0 lat lon alt hours minel = [] := by
  rw [calculate_passes, h]

theorem calculate_passes_swallows_exceptions_witness :
    scanLoop 10 0 (lookC10 0 0 0) [0, 1] ([], none) =
      .ok ([passC1], none) ∧
    scanRun (lookC10 0 0 0) 0 (numSteps 1) 10 = .error .raised ∧
    calculate_passes lookC10 0 0 0 0 1 10 = [] := by
  have hrange : List.range (numSteps 1) =
      [0, 1, 2, 3, 4, 5, 6, 7, 8, 9, 10, 11, 12] := by decide
  have hfound : scanLoop 10 0 (lookC10 0 0 0) [0, 1] ([], none) =
      .ok ([passC1], none) := by
    norm_num [scanLoop, scanStep, closePass, stepTime, lookC10, bind,
      Except.bind, pure, Except.pure, passC1]
  have h : scanRun (lookC10 0 0 0) 0 (numSteps 1) 10 = .error .raised := by
    rw [scanRun, hrange]
    norm_num [scanLoop, scanStep, closePass, stepTime, lookC10, bind,
      Except.bind, pure, Except.pure]
  exact ⟨hfound, h,
    calculate_passes_swallows_exceptions lookC10 0 0 0 0 1 10 .raised h⟩

/-- `math.radians`. -/
noncomputable def radians (d : ℝ) : ℝ := d * Real.pi / 180

/-- `math.degrees`. -/
noncomputable def degrees (r : ℝ) : ℝ := r * 180 / Real.pi

/-- `math.atan2(y, x)`: the argument of the complex number `x + y*i`,
valued in `(-π, π]`. -/
noncomputable def atan2 (y x : ℝ) : ℝ := Complex.arg ⟨x, y⟩

/-- Python's float `%` operator (result has the sign of the divisor):
`a % b = a - b * floor(a / b)`. -/
noncomputable def pymod (a b : ℝ) : ℝ := a - b * ⌊a / b⌋

/-- Geodetic output triple of `_eci_to_geodetic`. -/
structure Geodetic where
  lat : ℝ
  lon : ℝ
  alt : ℝ

/-- `OrbitalCalculator._eci_to_geodetic`.  `hours_since_j2000` stands
for `(dt - datetime(2000, 1, 1, 12, 0, 0)).total_seconds() / 3600.0`;
the longitude subtracts `(earth_rotation_rate * hours_since_j2000) %
360` (Python precedence: `%` binds before `-`) and then applies one
`±360` correction step, and the altitude subtracts the spherical
`EARTH_RADIUS_KM`. -/
noncomputable def eci_to_geodetic (x y z hours_since_j2000 : ℝ) :
    Geodetic :=
  let r := Real.sqrt (x ^ 2 + y ^ 2 + z ^ 2)
  let lat := degrees (Real.arcsin (z / r))
  let lon := degrees (atan2 y x)
  let earth_rotation_rate : ℝ := 15.04107
  let lon_adjusted :=
    lon - pymod (earth_rotation_rate * hours_since_j2000) 360
  let lon_final :=
    if lon_adjusted > 180 then lon_adjusted - 360
    else if lon_adjusted < -180 then lon_adjusted + 360
    else lon_adjusted
  ⟨lat, lon_final, r - EARTH_RADIUS_KM⟩

/-- Fields of the dict built by `get_position_at_time` that the spec
constrains (`position_eci`, `velocity_eci` and the echoed inputs are
omitted). -/
structure StateVec where
  latitude : ℝ
  longitude : ℝ
  altitude_km : ℝ
  velocity_km_s : ℝ

/-- `OrbitalCalculator.get_position_at_time`.  The external
`Satrec.sgp4` call is the parameter `sgp4`, with `none` standing for
`error != 0` or an exception caught inside the function; `t` is the
instant as hours since J2000.0.  On success the ECI position is
converted by `_eci_to_geodetic` and the speed is the Euclidean norm of
the ECI velocity. -/
noncomputable def get_position_at_time
    (sgp4 : ℝ → Option ((ℝ × ℝ × ℝ) × (ℝ × ℝ × ℝ))) (t : ℝ) :
    Option StateVec :=
  match sgp4 t with
  | none => none
  | some (p, v) =>
      let g := eci_to_geodetic p.1 p.2.1 p.2.2 t
      some ⟨g.lat, g.lon, g.alt,
        Real.sqrt (v.1 ^ 2 + v.2.1 ^ 2 + v.2.2 ^ 2)⟩

/-- Geocentric Cartesian x used by `_calculate_look_angles` for both
endpoints: `(EARTH_RADIUS_KM + alt) * cos(lat_rad) * cos(lon_rad)`. -/
noncomputable def sphX (lat lon alt : ℝ) : ℝ :=
  (EARTH_RADIUS_KM + alt) * Real.cos (radians lat) * Real.cos (radians lon)

/-- Geocentric Cartesian y: `(EARTH_RADIUS_KM + alt) * cos * sin`. -/
noncomputable def sphY (lat lon alt : ℝ) : ℝ :=
  (EARTH_RADIUS_KM + alt) * Real.cos (radians lat) * Real.sin (radians lon)

/-- Geocentric Cartesian z: `(EARTH_RADIUS_KM + alt) * sin(lat_rad)`. -/
noncomputable def sphZ (lat alt : ℝ) : ℝ :=
  (EARTH_RADIUS_KM + alt) * Real.sin (radians lat)

/-- East component of the ECEF→ENU rotation at the observer. -/
noncomputable def enuEast (obs_lon dx dy : ℝ) : ℝ :=
  -Real.sin (radians obs_lon) * dx + Real.cos (radians obs_lon) * dy

/-- North component of the ECEF→ENU rotation at the observer. -/
noncomputable def enuNorth (obs_lat obs_lon dx dy dz : ℝ) : ℝ :=
  -Real.sin (radians obs_lat) * Real.cos (radians obs_lon) * dx
    - Real.sin (radians obs_lat) * Real.sin (radians obs_lon) * dy
    + Real.cos (radians obs_lat) * dz

/-- Up component of the ECEF→ENU rotation at the observer. -/
noncomputable def enuUp (obs_lat obs_lon dx dy dz : ℝ) : ℝ :=
  Real.cos (radians obs_lat) * Real.cos (radians obs_lon) * dx
    + Real.cos (radians obs_lat) * Real.sin (radians obs_lon) * dy
    + Real.sin (radians obs_lat) * dz

/-- `OrbitalCalculator._calculate_look_angles`: returns
`(elevation, azimuth, distance)` in degrees, degrees, km. -/
noncomputable def calculate_look_angles
    (obs_lat obs_lon obs_alt sat_lat sat_lon sat_alt : ℝ) : ℝ × ℝ × ℝ :=
  let dx := sphX sat_lat sat_lon sat_alt - sphX obs_lat obs_lon obs_alt
  let dy := sphY sat_lat sat_lon sat_alt - sphY obs_lat obs_lon obs_alt
  let dz := sphZ sat_lat sat_alt - sphZ obs_lat obs_alt
  let distance := Real.sqrt (dx ^ 2 + dy ^ 2 + dz ^ 2)
  let east := enuEast obs_lon dx dy
  let north := enuNorth obs_lat obs_lon dx dy dz
  let up := enuUp obs_lat obs_lon dx dy dz
  let elevation := degrees (atan2 up (Real.sqrt (east ^ 2 + north ^ 2)))
  let azimuth := degrees (atan2 east north)
  let azimuth_norm := if azimuth < 0 then azimuth + 360 else azimuth
  (elevation, azimuth_norm, distance)

/-- East component at the observer-to-satellite difference vector. -/
noncomputable def lookEast (o₁ o₂ o₃ s₁ s₂ s₃ : ℝ) : ℝ :=
  enuEast o₂ (sphX s₁ s₂ s₃ - sphX o₁ o₂ o₃) (sphY s₁ s₂ s₃ - sphY o₁ o₂ o₃)

/-- North component at the observer-to-satellite difference vector. -/
noncomputable def lookNorth (o₁ o₂ o₃ s₁ s₂ s₃ : ℝ) : ℝ :=
  enuNorth o₁ o₂ (sphX s₁ s₂ s₃ - sphX o₁ o₂ o₃)
    (sphY s₁ s₂ s₃ - sphY o₁ o₂ o₃) (sphZ s₁ s₃ - sphZ o₁ o₃)

/-- Up component at the observer-to-satellite difference vector. -/
noncomputable def lookUp (o₁ o₂ o₃ s₁ s₂ s₃ : ℝ) : ℝ :=
  enuUp o₁ o₂ (sphX s₁ s₂ s₃ - sphX o₁ o₂ o₃)
    (sphY s₁ s₂ s₃ - sphY o₁ o₂ o₃) (sphZ s₁ s₃ - sphZ o₁ o₃)

lemma degrees_mono {a b : ℝ} (h : a ≤ b) : degrees a ≤ degrees b := by
  unfold degrees
  exact (div_le_div_iff_of_pos_right Real.pi_pos).2 (by nlinarith)

lemma degrees_strict_mono {a b : ℝ} (h : a < b) : degrees a < degrees b := by
  unfold degrees
  exact (div_lt_div_iff_of_pos_right Real.pi_pos).2 (by nlinarith)

lemma degrees_pi : degrees Real.pi = 180 := by
  unfold degrees
  field_simp

lemma degrees_pi_div_two : degrees (Real.pi / 2) = 90 := by
  unfold degrees
  field_simp
  ring

lemma degrees_neg (a : ℝ) : degrees (-a) = -degrees a := by
  unfold degrees
  ring

lemma degrees_atan2_mem (y x : ℝ) :
    -180 < degrees (atan2 y x) ∧ degrees (atan2 y x) ≤ 180 := by
  obtain ⟨h1, h2⟩ := Complex.arg_mem_Ioc (⟨x, y⟩ : ℂ)
  unfold atan2
  constructor
  · have := degrees_strict_mono h1
    rwa [degrees_neg, degrees_pi] at this
  · have := degrees_mono h2
    rwa [degrees_pi] at this

lemma degrees_arcsin_mem (w : ℝ) :
    -90 ≤ degrees (Real.arcsin w) ∧ degrees (Real.arcsin w) ≤ 90 := by
  constructor
  · have := degrees_mono (Real.neg_pi_div_two_le_arcsin w)
    rwa [degrees_neg, degrees_pi_div_two] at this
  · have := degrees_mono (Real.arcsin_le_pi_div_two w)
    rwa [degrees_pi_div_two] at this

lemma degrees_atan2_nonneg_re (u s : ℝ) (hs : 0 ≤ s) :
    -90 ≤ degrees (atan2 u s) ∧ degrees (atan2 u s) ≤ 90 := by
  have habs : |Complex.arg ⟨s, u⟩| ≤ Real.pi / 2 :=
    Complex.abs_arg_le_pi_div_two_iff.mpr hs
  obtain ⟨h1, h2⟩ := abs_le.1 habs
  unfold atan2
  constructor
  · have := degrees_mono h1
    rwa [degrees_neg, degrees_pi_div_two] at this
  · have := degrees_mono h2
    rwa [degrees_pi_div_two] at this

lemma pymod_360_nonneg (a : ℝ) : 0 ≤ pymod a 360 := by
  unfold pymod
  have h := Int.floor_le (a / 360)
  linarith

lemma pymod_360_lt (a : ℝ) : pymod a 360 < 360 := by
  unfold pymod
  have h := Int.lt_floor_add_one (a / 360)
  linarith

lemma eci_lon_bounds (x y z h : ℝ) :
    -180 ≤ (eci_to_geodetic x y z h).lon ∧
    (eci_to_geodetic x y z h).lon ≤ 180 := by
  have hb := degrees_atan2_mem y x
  have hm1 := pymod_360_nonneg (15.04107 * h)
  have hm2 := pymod_360_lt (15.04107 * h)
  refine ⟨?_, ?_⟩ <;>
  · simp only [eci_to_geodetic]
    split_ifs <;> linarith [hb.1, hb.2]

lemma eci_lon_congr (x y z h : ℝ) :
    ∃ k : ℤ, (eci_to_geodetic x y z h).lon =
      degrees (atan2 y x) - 15.04107 * h + 360 * k := by
  have hfl : pymod (15.04107 * h) 360 =
      15.04107 * h - 360 * ⌊15.04107 * h / 360⌋ := by
    unfold pymod
    ring
  simp only [eci_to_geodetic]
  split_ifs
  · exact ⟨⌊15.04107 * h / 360⌋ - 1, by rw [hfl]; push_cast; ring⟩
  · exact ⟨⌊15.04107 * h / 360⌋ + 1, by rw [hfl]; push_cast; ring⟩
  · exact ⟨⌊15.04107 * h / 360⌋, by rw [hfl]; ring⟩

/-- C7: for every ECI position with nonzero geocentric radius `r` and
every instant, `_eci_to_geodetic` returns latitude
`degrees (arcsin (z / r))`; a longitude congruent modulo 360 to
`degrees (atan2 y x)` minus 15.04107 degrees per hour since the
J2000.0 epoch, normalized into `[-180, 180]`; and altitude
`r - 6371.0` km (spherical Earth, no WGS84 oblateness). -/
theorem eci_to_geodetic_spec (x y z h : ℝ)
    (_hr : Real.sqrt (x ^ 2 + y ^ 2 + z ^ 2) ≠ 0) :
    (eci_to_geodetic x y z h).lat =
      degrees (Real.arcsin (z / Real.sqrt (x ^ 2 + y ^ 2 + z ^ 2))) ∧
    (∃ k : ℤ, (eci_to_geodetic x y z h).lon =
      degrees (atan2 y x) - 15.04107 * h + 360 * k) ∧
    -180 ≤ (eci_to_geodetic x y z h).lon ∧
    (eci_to_geodetic x y z h).lon ≤ 180 ∧
    (eci_to_geodetic x y z h).alt =
      Real.sqrt (x ^ 2 + y ^ 2 + z ^ 2) - 6371.0 :=
  ⟨rfl, eci_lon_congr x y z h, (eci_lon_bounds x y z h).1,
    (eci_lon_bounds x y z h).2, rfl⟩

theorem eci_to_geodetic_spec_witness :
    Real.sqrt ((0 : ℝ) ^ 2 + 0 ^ 2 + 7000 ^ 2) ≠ 0 ∧
    -180 ≤ (eci_to_geodetic 0 0 7000 0).lon ∧
    (eci_to_geodetic 0 0 7000 0).lon ≤ 180 ∧
    (eci_to_geodetic 0 0 7000 0).alt =
      Real.sqrt ((0 : ℝ) ^ 2 + 0 ^ 2 + 7000 ^ 2) - 6371.0 := by
  have hr : Real.sqrt ((0 : ℝ) ^ 2 + 0 ^ 2 + 7000 ^ 2) ≠ 0 :=
    ne_of_gt (Real.sqrt_pos.mpr (by norm_num))
  have h := eci_to_geodetic_spec 0 0 7000 0 hr
  exact ⟨hr, h.2.2.1, h.2.2.2.1, h.2.2.2.2⟩

/-- C8: whenever the propagator succeeds at an instant — so
`get_position_at_time` returns a record — the record's latitude lies in
`[-90, 90]` and its longitude in `[-180, 180]`; and if the propagated
geocentric radius exceeds the Earth radius (the object has not
decayed), the altitude is positive. -/
theorem get_position_at_time_bounds
    (sgp4 : ℝ → Option ((ℝ × ℝ × ℝ) × (ℝ × ℝ × ℝ))) (t : ℝ)
    (p v : ℝ × ℝ × ℝ) (hp : sgp4 t = some (p, v)) (rec : StateVec)
    (hrec : get_position_at_time sgp4 t = some rec) :
    -90 ≤ rec.latitude ∧ rec.latitude ≤ 90 ∧
    -180 ≤ rec.longitude ∧ rec.longitude ≤ 180 ∧
    (EARTH_RADIUS_KM < Real.sqrt (p.1 ^ 2 + p.2.1 ^ 2 + p.2.2 ^ 2) →
      0 < rec.altitude_km) := by
  simp only [get_position_at_time, hp, Option.some.injEq] at hrec
  subst hrec
  have hlat : (eci_to_geodetic p.1 p.2.1 p.2.2 t).lat =
      degrees (Real.arcsin
        (p.2.2 / Real.sqrt (p.1 ^ 2 + p.2.1 ^ 2 + p.2.2 ^ 2))) := rfl
  have halt : (eci_to_geodetic p.1 p.2.1 p.2.2 t).alt =
      Real.sqrt (p.1 ^ 2 + p.2.1 ^ 2 + p.2.2 ^ 2) - EARTH_RADIUS_KM := rfl
  refine ⟨?_, ?_, ?_, ?_, ?_⟩
  · show -90 ≤ (eci_to_geodetic p.1 p.2.1 p.2.2 t).lat
    rw [hlat]
    exact (degrees_arcsin_mem _).1
  · show (eci_to_geodetic p.1 p.2.1 p.2.2 t).lat ≤ 90
    rw [hlat]
    exact (degrees_arcsin_mem _).2
  · exact (eci_lon_bounds p.1 p.2.1 p.2.2 t).1
  · exact (eci_lon_bounds p.1 p.2.1 p.2.2 t).2
  · intro hlt
    show 0 < (eci_to_geodetic p.1 p.2.1 p.2.2 t).alt
    rw [halt]
    linarith

def sgp4W : ℝ → Option ((ℝ × ℝ × ℝ) × (ℝ × ℝ × ℝ)) := fun _ =>
  some ((7000, 0, 0), (0, 7, 0))

noncomputable def recW : StateVec :=
  ⟨(eci_to_geodetic 7000 0 0 0).lat, (eci_to_geodetic 7000 0 0 0).lon,
    (eci_to_geodetic 7000 0 0 0).alt,
    Real.sqrt ((0 : ℝ) ^ 2 + 7 ^ 2 + 0 ^ 2)⟩

theorem get_position_at_time_bounds_witness :
    sgp4W 0 = some ((7000, 0, 0), (0, 7, 0)) ∧
    get_position_at_time sgp4W 0 = some recW ∧
    EARTH_RADIUS_KM <
      Real.sqrt ((7000 : ℝ) ^ 2 + 0 ^ 2 + 0 ^ 2) ∧
    -90 ≤ recW.latitude ∧ recW.latitude ≤ 90 ∧
    -180 ≤ recW.longitude ∧ recW.longitude ≤ 180 ∧
    0 < recW.altitude_km := by
  have h2 : get_position_at_time sgp4W 0 = some recW := rfl
  have hr : EARTH_RADIUS_KM <
      Real.sqrt ((7000 : ℝ) ^ 2 + 0 ^ 2 + 0 ^ 2) := by
    have hs : Real.sqrt ((7000 : ℝ) ^ 2 + 0 ^ 2 + 0 ^ 2) = 7000 := by
      rw [show ((7000 : ℝ) ^ 2 + 0 ^ 2 + 0 ^ 2) = 7000 ^ 2 by norm_num]
      exact Real.sqrt_sq (by norm_num)
    rw [hs, EARTH_RADIUS_KM]
    norm_num
  obtain ⟨hb1, hb2, hb3, hb4, hb5⟩ :=
    get_position_at_time_bounds sgp4W 0 (7000, 0, 0) (0, 7, 0) rfl recW h2
  exact ⟨rfl, h2, hr, hb1, hb2, hb3, hb4, hb5 hr⟩

lemma calculate_look_angles_az_eq (o₁ o₂ o₃ s₁ s₂ s₃ : ℝ) :
    (calculate_look_angles o₁ o₂ o₃ s₁ s₂ s₃).2.1 =
      if degrees (atan2 (lookEast o₁ o₂ o₃ s₁ s₂ s₃)
          (lookNorth o₁ o₂ o₃ s₁ s₂ s₃)) < 0 then
        degrees (atan2 (lookEast o₁ o₂ o₃ s₁ s₂ s₃)
          (lookNorth o₁ o₂ o₃ s₁ s₂ s₃)) + 360
      else
        degrees (atan2 (lookEast o₁ o₂ o₃ s₁ s₂ s₃)
          (lookNorth o₁ o₂ o₃ s₁ s₂ s₃)) := rfl

/-- C9: `_calculate_look_angles` returns elevation
`degrees (atan2 Up (sqrt (East^2 + North^2)))` — hence in `[-90, 90]` —
azimuth `degrees (atan2 East North)` shifted by `+360` when negative
and so lying in `[0, 360)`, and range the Euclidean norm of the
observer-to-satellite difference vector in the shared spherical-Earth
Cartesian frame. -/
theorem calculate_look_angles_spec (o₁ o₂ o₃ s₁ s₂ s₃ : ℝ) :
    (calculate_look_angles o₁ o₂ o₃ s₁ s₂ s₃).1 =
      degrees (atan2 (lookUp o₁ o₂ o₃ s₁ s₂ s₃)
        (Real.sqrt (lookEast o₁ o₂ o₃ s₁ s₂ s₃ ^ 2 +
          lookNorth o₁ o₂ o₃ s₁ s₂ s₃ ^ 2))) ∧
    -90 ≤ (calculate_look_angles o₁ o₂ o₃ s₁ s₂ s₃).1 ∧
    (calculate_look_angles o₁ o₂ o₃ s₁ s₂ s₃).1 ≤ 90 ∧
    ((calculate_look_angles o₁ o₂ o₃ s₁ s₂ s₃).2.1 =
        degrees (atan2 (lookEast o₁ o₂ o₃ s₁ s₂ s₃)
          (lookNorth o₁ o₂ o₃ s₁ s₂ s₃)) ∨
      (calculate_look_angles o₁ o₂ o₃ s₁ s₂ s₃).2.1 =
        degrees (atan2 (lookEast o₁ o₂ o₃ s₁ s₂ s₃)
          (lookNorth o₁ o₂ o₃ s₁ s₂ s₃)) + 360) ∧
    0 ≤ (calculate_look_angles o₁ o₂ o₃ s₁ s₂ s₃).2.1 ∧
    (calculate_look_angles o₁ o₂ o₃ s₁ s₂ s₃).2.1 < 360 ∧
    (calculate_look_angles o₁ o₂ o₃ s₁ s₂ s₃).2.2 =
      Real.sqrt ((sphX s₁ s₂ s₃ - sphX o₁ o₂ o₃) ^ 2 +
        (sphY s₁ s₂ s₃ - sphY o₁ o₂ o₃) ^ 2 +
        (sphZ s₁ s₃ - sphZ o₁ o₃) ^ 2) := by
  have hel := degrees_atan2_nonneg_re (lookUp o₁ o₂ o₃ s₁ s₂ s₃)
    (Real.sqrt (lookEast o₁ o₂ o₃ s₁ s₂ s₃ ^ 2 +
      lookNorth o₁ o₂ o₃ s₁ s₂ s₃ ^ 2)) (Real.sqrt_nonneg _)
  have haz := degrees_atan2_mem (lookEast o₁ o₂ o₃ s₁ s₂ s₃)
    (lookNorth o₁ o₂ o₃ s₁ s₂ s₃)
  refine ⟨rfl, hel.1, hel.2, ?_, ?_, ?_, rfl⟩
  · rw [calculate_look_angles_az_eq]
    split_ifs
    · exact Or.inr rfl
    · exact Or.inl rfl
  · rw [calculate_look_angles_az_eq]
    split_ifs with hneg
    · linarith [haz.1]
    · linarith [not_lt.1 hneg]
  · rw [calculate_look_angles_az_eq]
    split_ifs with hneg
    · linarith
    · linarith [haz.2]
